import Mathlib

/-!
Formal model of the planebrane frontend pattern-to-geometry pipeline.

The TypeScript sources are embedded shallowly:

* JavaScript numbers are modelled as exact rationals (`ℚ`).  Transcendental
  library functions (`Math.PI`, `Math.cos`, `Math.sin`, `Math.atan2`) are taken
  as explicit function parameters (`piq`, `cosq`, `sinq`, `atan2q`); theorems
  that depend on them only assume the bounds those functions actually satisfy
  (for example `|cos t| ≤ 1`).
* A comparison `Math.sqrt s < m` on a non-negative radicand `s` is rendered
  without a square root as `0 < m ∧ s < m ^ 2`, and `Math.sqrt s > t` as
  `t < 0 ∨ t ^ 2 < s`; both rewritings are exact for real arithmetic.
* `Math.random()` is modelled as an explicit stream `rng : ℕ → ℚ` of draws,
  consumed left to right exactly as the source consumes calls.
* Typed arrays are modelled as index functions; `Array.prototype.sort` with the
  comparator `(a, b) => b.confidence - a.confidence` is modelled by a stable
  insertion sort in descending confidence order, which matches the ES2019
  contract (sorted output, stable on ties).
-/

/-- Model of `Array.prototype.slice(0, k)` for a possibly negative JavaScript
end index `k`: a non-negative `k` takes the first `k` elements, a negative `k`
drops the last `|k|` elements. -/
def jsSlice0 {α : Type} (k : ℤ) (l : List α) : List α :=
  if 0 ≤ k then l.take k.toNat else l.take (l.length - k.natAbs)

/-- Model of a 2D point as produced by the extraction layer
(`Point2D` in `useAppStore.ts`): normalized coordinates, a weight and a
feature-kind string. -/
structure Point2D where
  x : ℚ
  y : ℚ
  weight : ℚ
  feature_type : String
deriving DecidableEq, Repr

/-- Model of `GeometricFeature` from `geometryDetection.ts`: a pixel-space
feature with a type tag and a confidence. -/
structure GeometricFeature where
  ftype : String
  x : ℚ
  y : ℚ
  confidence : ℚ
deriving DecidableEq, Repr

/-- Model of the `ImageData` raster handed to `detectFeaturesFromImageData`:
a width, a height and the RGBA byte buffer (4 entries per pixel), read through
an index function. -/
structure ImageData where
  width : ℕ
  height : ℕ
  data : ℕ → ℚ

/-- An image is uniformly blank when every read of its byte buffer returns the
same value, so every pixel has the same color and hence the same intensity. -/
def IsBlank (img : ImageData) : Prop :=
  ∀ i j : ℕ, img.data i = img.data j

/-- Model of storing a JavaScript number into a `Uint8Array` slot (truncation
to an integer followed by reduction mod 256; for the luminance values the
source stores, which lie in `[0, 255]`, this is exactly `Int.floor`). -/
def toUint8 (q : ℚ) : ℤ :=
  ⌊q⌋ % 256

/-- Grayscale conversion from `detectFeaturesFromImageData` lines 73-77:
`gray[idx] = 0.299 * data[i] + 0.587 * data[i+1] + 0.114 * data[i+2]` with
`i = 4 * idx`, stored into a `Uint8Array`. -/
def grayAt (img : ImageData) (idx : ℕ) : ℤ :=
  toUint8 (0.299 * img.data (4 * idx) + 0.587 * img.data (4 * idx + 1)
    + 0.114 * img.data (4 * idx + 2))

/-- The 3×3 Sobel x-kernel from `applySobelFilter`. -/
def sobelX : List ℤ := [-1, 0, 1, -2, 0, 2, -1, 0, 1]

/-- The 3×3 Sobel y-kernel from `applySobelFilter`. -/
def sobelY : List ℤ := [-1, -2, -1, 0, 0, 0, 1, 2, 1]

/-- One Sobel convolution sum at interior pixel `(x, y)` (`x, y ≥ 1`):
`Σ_{ky,kx ∈ [-1,1]} gray[(y+ky)*width + (x+kx)] * kernel[(ky+1)*3+(kx+1)]`.
The loop indices `a = ky + 1`, `b = kx + 1` run over `0..2`. -/
def sobelConv (kernel : List ℤ) (g : ℕ → ℤ) (w x y : ℕ) : ℤ :=
  ((List.range 3).flatMap fun a =>
    (List.range 3).map fun b =>
      g ((y - 1 + a) * w + (x - 1 + b)) * kernel.getD (a * 3 + b) 0).sum

/-- The comparison `Math.sqrt s > t` for a non-negative radicand `s`,
expressed without square roots. -/
def sqrtGT (s t : ℚ) : Prop :=
  t < 0 ∨ t ^ 2 < s

instance (s t : ℚ) : Decidable (sqrtGT s t) := by
  unfold sqrtGT; infer_instance

/-- Model of `applySobelFilter` as a pixel function: the edge buffer holds 255
at interior pixels whose gradient magnitude exceeds `threshold` and 0
elsewhere (the array is zero-initialized and only interior pixels are
written). -/
def applySobelFilter (g : ℕ → ℤ) (w h : ℕ) (threshold : ℚ) (x y : ℕ) : ℚ :=
  if 1 ≤ x ∧ x + 1 < w ∧ 1 ≤ y ∧ y + 1 < h ∧
      sqrtGT (((sobelConv sobelX g w x y) ^ 2 + (sobelConv sobelY g w x y) ^ 2 : ℤ) : ℚ)
        threshold
  then 255 else 0

/-- The guarded Harris accumulation from `detectCorners` lines 160-175: for
window offsets `wy = a - 3`, `wx = b - 3` with `a, b ∈ 0..6`, the term
`f Ix Iy` is added when both shifted indices are inside the buffer.  `f`
selects which second-moment entry is accumulated. -/
def harrisSum (g : ℕ → ℤ) (w h x y : ℕ) (f : ℤ → ℤ → ℤ) : ℤ :=
  ((List.range 7).flatMap fun a =>
    (List.range 7).map fun b =>
      let idx := (y - 3 + a) * w + (x - 3 + b)
      let idxX := (y - 3 + a) * w + (x - 3 + b) + 1
      let idxY := (y - 3 + a + 1) * w + (x - 3 + b)
      if idxX < w * h ∧ idxY < w * h then f (g idxX - g idx) (g idxY - g idx)
      else 0).sum

/-- The Harris corner response `det - k * trace²` with `k = 0.04`
(`detectCorners` lines 177-179). -/
def harrisResponse (g : ℕ → ℤ) (w h x y : ℕ) : ℚ :=
  let Ixx := harrisSum g w h x y fun ix _ => ix * ix
  let Iyy := harrisSum g w h x y fun _ iy => iy * iy
  let Ixy := harrisSum g w h x y fun ix iy => ix * iy
  ((Ixx * Iyy - Ixy * Ixy : ℤ) : ℚ) - 0.04 * ((Ixx + Iyy : ℤ) : ℚ) * ((Ixx + Iyy : ℤ) : ℚ)

/-- The index list visited by a loop `for (v = start; v < bound - start; v += step)`
over natural numbers, in ascending order. -/
def steppedRange (start step bound limit : ℕ) : List ℕ :=
  (List.range limit).filter fun v => start ≤ v ∧ v + bound < limit ∧ (v - start) % step = 0

/-- Model of `detectCorners`: Harris responses sampled on the grid
`x, y ∈ {3, 5, 7, ...}` with `x < width - 3`, `y < height - 3`; a corner is
recorded when `response > threshold * 100`, with confidence
`response / 1000000`. -/
def detectCorners (g : ℕ → ℤ) (w h : ℕ) (threshold : ℚ) : List GeometricFeature :=
  (steppedRange 3 2 3 h).flatMap fun y =>
    (steppedRange 3 2 3 w).flatMap fun x =>
      if threshold * 100 < harrisResponse g w h x y then
        [⟨"corner", (x : ℚ), (y : ℚ), harrisResponse g w h x y / 1000000⟩]
      else []

/-- The local edge-density curvature measure from `calculateCurvature`: the
fraction of pixels in an 11×11 window (bounds-checked) whose edge response is
positive. -/
def calculateCurvature (edges : ℕ → ℕ → ℚ) (x y w h : ℕ) : ℚ :=
  (((List.range 11).flatMap fun a =>
    (List.range 11).map fun b =>
      if 5 ≤ x + b ∧ x + b - 5 < w ∧ 5 ≤ y + a ∧ y + a - 5 < h ∧
          0 < edges (x + b - 5) (y + a - 5)
      then (1 : ℤ) else 0).sum : ℚ) / ((5 * 2 + 1) ^ 2 : ℚ)

/-- The index list visited by `for (v = 0; v < limit; v += 5)`. -/
def stride5 (limit : ℕ) : List ℕ :=
  (List.range limit).filter fun v => v % 5 = 0

/-- Model of `detectCurvePoints`: pixels sampled every 5 in each direction
whose edge response is positive and whose curvature exceeds 0.3. -/
def detectCurvePoints (edges : ℕ → ℕ → ℚ) (w h : ℕ) : List GeometricFeature :=
  (stride5 h).flatMap fun y =>
    (stride5 w).flatMap fun x =>
      if 0 < edges x y ∧ 0.3 < calculateCurvature edges x y w h then
        [⟨"curve", (x : ℚ), (y : ℚ), calculateCurvature edges x y w h⟩]
      else []

/-- The squared Euclidean distance between two features (pixel space). -/
def featDistSq (a b : GeometricFeature) : ℚ :=
  (a.x - b.x) ^ 2 + (a.y - b.y) ^ 2

/-- The accumulating loop of `filterBySpacing`: a feature is appended when no
already kept feature lies at squared distance below `minSpacing²`. -/
def filterBySpacingGo (minDistSq : ℚ) : List GeometricFeature → List GeometricFeature →
    List GeometricFeature
  | [], acc => acc
  | f :: rest, acc =>
      if acc.any fun e => decide (featDistSq f e < minDistSq) then
        filterBySpacingGo minDistSq rest acc
      else
        filterBySpacingGo minDistSq rest (acc ++ [f])

/-- Model of `filterBySpacing` (`geometryDetection.ts` lines 247-271). -/
def filterBySpacing (features : List GeometricFeature) (minSpacing : ℚ) :
    List GeometricFeature :=
  filterBySpacingGo (minSpacing * minSpacing) features []

/-- Model of `filteredFeatures.sort((a, b) => b.confidence - a.confidence)`:
a stable sort placing higher confidence first. -/
def sortByConfidenceDesc (l : List GeometricFeature) : List GeometricFeature :=
  l.insertionSort fun a b => b.confidence ≤ a.confidence

/-- The soft point cap of `detectFeaturesFromImageData` line 98:
`Math.floor((density / 100) * 200 + 20)`. -/
def maxPointsOf (density : ℚ) : ℤ :=
  ⌊density / 100 * 200 + 20⌋

/-- The suppression stage of `detectFeaturesFromImageData` lines 94-105:
spacing filter in candidate order, then sort by confidence descending, then
truncation to the density-derived cap. -/
def suppressStage (features : List GeometricFeature) (minSpacing density : ℚ) :
    List GeometricFeature :=
  jsSlice0 (maxPointsOf density) (sortByConfidenceDesc (filterBySpacing features minSpacing))

/-- The combined candidate list of `detectFeaturesFromImageData` lines 82-92:
Harris corners (tagged `corner`) followed by curve points (tagged `curve`),
each in raster order. -/
def allFeatures (img : ImageData) (threshold : ℚ) : List GeometricFeature :=
  detectCorners (grayAt img) img.width img.height threshold ++
    detectCurvePoints (applySobelFilter (grayAt img) img.width img.height threshold)
      img.width img.height

/-- Model of `detectFeaturesFromImageData` (`geometryDetection.ts`
lines 65-106). -/
def detectFeaturesFromImageData (img : ImageData) (threshold minSpacing density : ℚ) :
    List GeometricFeature :=
  suppressStage (allFeatures img threshold) minSpacing density

/-- Model of the feature-to-point conversion of `detectGeometricFeatures`
lines 47-52: coordinates are normalized by the canvas size, corner and
intersection features map to kind `center`, the rest to `edge`. -/
def detectGeometricFeatures (img : ImageData) (threshold minSpacing density : ℚ) :
    List Point2D :=
  (detectFeaturesFromImageData img threshold minSpacing density).map fun f =>
    { x := f.x / (img.width : ℚ)
      y := f.y / (img.height : ℚ)
      weight := f.confidence
      feature_type := if f.ftype = "corner" ∨ f.ftype = "intersection" then "center" else "edge" }

/-- The spacing test of `generateMockPoints` lines 60-64:
`points.some(p => Math.sqrt(dx*dx + dy*dy) < minDist)`, with the square-root
comparison rendered exactly on the non-negative radicand. -/
def mockTooClose (points : List Point2D) (x y minDist : ℚ) : Bool :=
  points.any fun p =>
    decide (0 < minDist ∧ (p.x - x) ^ 2 + (p.y - y) ^ 2 < minDist ^ 2)

/-- One candidate draw of `generateMockPoints` lines 45-57, consuming three
entries of the random stream starting at index `rix`: a branch draw, then
either an angle and radius draw (edge branch) or two coordinate draws (center
branch).  Returns the candidate and the next unconsumed stream index. -/
def mockCandidate (piq : ℚ) (cosq sinq : ℚ → ℚ) (rng : ℕ → ℚ) (edgeRatio : ℚ)
    (rix : ℕ) : (ℚ × ℚ) × ℕ :=
  if rng rix < edgeRatio then
    let angle := rng (rix + 1) * piq * 2
    let radius := 0.3 + rng (rix + 2) * 0.2
    ((0.5 + cosq angle * radius, 0.5 + sinq angle * radius), rix + 3)
  else
    ((0.2 + rng (rix + 1) * 0.6, 0.2 + rng (rix + 2) * 0.6), rix + 3)

/-- The do-while placement loop of `generateMockPoints` lines 45-68: draw a
candidate, stop successfully as soon as it is not too close to an existing
point, and give up after 50 draws (`maxAttempts`).  `fuel` counts the retries
still allowed after the current draw, so the first call passes 49. -/
def placeLoop (piq : ℚ) (cosq sinq : ℚ → ℚ) (rng : ℕ → ℚ) (edgeRatio minDist : ℚ)
    (points : List Point2D) : ℕ → ℕ → Option (ℚ × ℚ) × ℕ
  | rix, fuel =>
    let c := mockCandidate piq cosq sinq rng edgeRatio rix
    if mockTooClose points c.1.1 c.1.2 minDist then
      match fuel with
      | 0 => (none, c.2)
      | f + 1 => placeLoop piq cosq sinq rng edgeRatio minDist points c.2 f
    else
      (some c.1, c.2)

/-- Model of `Math.max(0, Math.min(1, q))` from lines 72-73. -/
def clamp01 (q : ℚ) : ℚ :=
  max 0 (min 1 q)

/-- The outer `for` loop of `generateMockPoints` lines 39-78: for each of the
remaining slots, run the placement loop; on success push the clamped candidate
(whose feature kind consumes one further random draw), on failure push
nothing. -/
def mockLoop (piq : ℚ) (cosq sinq : ℚ → ℚ) (rng : ℕ → ℚ)
    (edgeRatio minDist weighting : ℚ) :
    ℕ → List Point2D → ℕ → List Point2D
  | 0, points, _ => points
  | n + 1, points, rix =>
    match placeLoop piq cosq sinq rng edgeRatio minDist points rix 49 with
    | (some (x, y), rix2) =>
        mockLoop piq cosq sinq rng edgeRatio minDist weighting n
          (points ++ [⟨clamp01 x, clamp01 y, weighting,
            if rng rix2 < edgeRatio then "edge" else "center"⟩])
          (rix2 + 1)
    | (none, rix2) => mockLoop piq cosq sinq rng edgeRatio minDist weighting n points rix2

/-- Model of `generateMockPoints` (`useAdjustPoints.ts` lines 19-81):
`totalPoints = Math.floor((density / 100) * 180 + 20)` slots,
`edgeRatio = threshold / 255`, `minDist = minSpacing / 100`. -/
def generateMockPoints (piq : ℚ) (cosq sinq : ℚ → ℚ) (rng : ℕ → ℚ)
    (density threshold minSpacing weighting : ℚ) : List Point2D :=
  mockLoop piq cosq sinq rng (threshold / 255) (minSpacing / 100) weighting
    (⌊density / 100 * 180 + 20⌋).toNat [] 0

/-- The fallback of the `useAdjustPoints` query function lines 360-383: a
non-empty detection result is returned as is, an empty one is discarded in
favor of the mock points. -/
def adjustPointsFallback (detected mockPoints : List Point2D) : List Point2D :=
  if 0 < detected.length then detected else mockPoints

/-- The slice of the zustand store state (`useAppStore`) involved in points
editing and its undo/redo history. -/
structure PointsHistoryState where
  adjustedPoints : List Point2D
  pointsHistory : List (List Point2D)
  pointsHistoryIndex : ℤ
  canUndo : Bool
  canRedo : Bool
deriving DecidableEq, Repr

/-- Model of `addPointsToHistory` (`useAppStore` section of
`useAdjustPoints.ts` lines 688-699): truncate the history after the current
index, append a copy of the points, and move the index to the new end. -/
def addPointsToHistory (s : PointsHistoryState) (points : List Point2D) :
    PointsHistoryState :=
  let newHistory := jsSlice0 (s.pointsHistoryIndex + 1) s.pointsHistory ++ [points]
  { s with
    pointsHistory := newHistory
    pointsHistoryIndex := (newHistory.length : ℤ) - 1
    canUndo := decide (1 < newHistory.length)
    canRedo := false }

/-- Model of `setAdjustedPoints` lines 679-682: store the points and record
them in the history. -/
def setAdjustedPoints (s : PointsHistoryState) (points : List Point2D) :
    PointsHistoryState :=
  addPointsToHistory { s with adjustedPoints := points } points

/-- Model of `undo` lines 701-712: when the index is positive, step back and
restore that history entry. -/
def undo (s : PointsHistoryState) : PointsHistoryState :=
  if 0 < s.pointsHistoryIndex then
    let newIndex := s.pointsHistoryIndex - 1
    { s with
      adjustedPoints := s.pointsHistory.getD newIndex.toNat []
      pointsHistoryIndex := newIndex
      canUndo := decide (0 < newIndex)
      canRedo := true }
  else s

/-- Model of `redo` lines 714-725: when the index is before the last entry,
step forward and restore that history entry. -/
def redo (s : PointsHistoryState) : PointsHistoryState :=
  if s.pointsHistoryIndex < (s.pointsHistory.length : ℤ) - 1 then
    let newIndex := s.pointsHistoryIndex + 1
    { s with
      adjustedPoints := s.pointsHistory.getD newIndex.toNat []
      pointsHistoryIndex := newIndex
      canUndo := true
      canRedo := decide (newIndex < (s.pointsHistory.length : ℤ) - 1) }
  else s

/-- Model of `MockModelData` from `useGenerateModel` (src/unnamed/part_000). -/
structure MockModelData where
  vertices : List (ℚ × ℚ × ℚ)
  faces : List (ℕ × ℕ × ℕ)
  normals : List (ℚ × ℚ × ℚ)
  vertex_count : ℕ
  face_count : ℕ
  bounding_box : List ℚ
deriving DecidableEq, Repr

/-- One latitude-longitude sphere vertex from `generateSphereModel`
lines 137-153: `theta = (ring/rings)*π`, `phi = (segment/segments)*2π`,
radius 1.  The same triple is pushed as the vertex and as its normal. -/
def sphereVertex (piq : ℚ) (cosq sinq : ℚ → ℚ) (ring segment : ℕ) : ℚ × ℚ × ℚ :=
  let theta := ((ring : ℚ) / 16) * piq
  let phi := ((segment : ℚ) / 16) * piq * 2
  (1 * sinq theta * cosq phi, 1 * cosq theta, 1 * sinq theta * sinq phi)

/-- The face-list loop shared verbatim by all three mesh generators, with the
grid dimensions as parameters: two triangles per cell of an `M×N` grid over
`(M+1)×(N+1)` vertices, cell `(i, j)` using `v0 = i*(N+1)+j`, `v1 = v0+(N+1)`,
`v2 = v0+1`, `v3 = v1+1` and pushing `[v0,v1,v2]` then `[v2,v1,v3]`. -/
def gridFaces (M N : ℕ) : List (ℕ × ℕ × ℕ) :=
  (List.range M).flatMap fun i =>
    (List.range N).flatMap fun j =>
      let v0 := i * (N + 1) + j
      let v1 := v0 + (N + 1)
      let v2 := v0 + 1
      let v3 := v1 + 1
      [(v0, v1, v2), (v2, v1, v3)]

/-- The face list of `generateSphereModel` lines 157-167: the grid face loop
with `rings = segments = 16`. -/
def sphereFaces : List (ℕ × ℕ × ℕ) :=
  gridFaces 16 16

/-- Model of `generateSphereModel` (src/unnamed/part_000 lines 127-177). -/
def generateSphereModel (piq : ℚ) (cosq sinq : ℚ → ℚ) : MockModelData :=
  let vs := (List.range 17).flatMap fun ring =>
    (List.range 17).map fun segment => sphereVertex piq cosq sinq ring segment
  { vertices := vs
    faces := sphereFaces
    normals := vs
    vertex_count := vs.length
    face_count := sphereFaces.length
    bounding_box := [-1, -1, -1, 1, 1, 1] }

/-- One torus vertex from `generateTorusModel` lines 190-204:
`theta = (i/majorSegments)*2π`, `phi = (j/minorSegments)*2π`, major radius 1,
minor radius 0.3. -/
def torusVertex (piq : ℚ) (cosq sinq : ℚ → ℚ) (i j : ℕ) : ℚ × ℚ × ℚ :=
  let theta := ((i : ℚ) / 32) * piq * 2
  let phi := ((j : ℚ) / 16) * piq * 2
  ((1 + 0.3 * cosq phi) * cosq theta, 0.3 * sinq phi, (1 + 0.3 * cosq phi) * sinq theta)

/-- The torus normal from `generateTorusModel` lines 206-210. -/
def torusNormal (piq : ℚ) (cosq sinq : ℚ → ℚ) (i j : ℕ) : ℚ × ℚ × ℚ :=
  let theta := ((i : ℚ) / 32) * piq * 2
  let phi := ((j : ℚ) / 16) * piq * 2
  (cosq phi * cosq theta, sinq phi, cosq phi * sinq theta)

/-- The face list of `generateTorusModel` lines 214-225: the grid face loop
with `majorSegments = 32`, `minorSegments = 16`. -/
def torusFaces : List (ℕ × ℕ × ℕ) :=
  gridFaces 32 16

/-- Model of `generateTorusModel` (src/unnamed/part_000 lines 179-236). -/
def generateTorusModel (piq : ℚ) (cosq sinq : ℚ → ℚ) : MockModelData :=
  let vs := (List.range 33).flatMap fun i =>
    (List.range 17).map fun j => torusVertex piq cosq sinq i j
  let ns := (List.range 33).flatMap fun i =>
    (List.range 17).map fun j => torusNormal piq cosq sinq i j
  { vertices := vs
    faces := torusFaces
    normals := ns
    vertex_count := vs.length
    face_count := torusFaces.length
    bounding_box := [-(1 : ℚ) - 0.3, -0.3, -1 - 0.3, 1 + 0.3, 0.3, 1 + 0.3] }

/-- Model of the mock `Generate3DResponse` assembled by `generateMockModel`:
an id derived from the current time, the reported shape tag and the spread
model data. -/
structure MockGenerate3DResponse where
  id : String
  shape : String
  model : MockModelData
deriving DecidableEq, Repr

/-- Model of `generateMockModel` (src/unnamed/part_000 lines 108-116):
`shape === 'torus'` selects the torus mock, anything else the sphere mock;
the reported shape is likewise `'torus'` or `'sphere'`. -/
def generateMockModel (now : ℕ) (piq : ℚ) (cosq sinq : ℚ → ℚ) (shape : String) :
    MockGenerate3DResponse :=
  { id := "mock-" ++ toString now
    shape := if shape = "torus" then "torus" else "sphere"
    model := if shape = "torus" then generateTorusModel piq cosq sinq
      else generateSphereModel piq cosq sinq }

/-- Truncation of a rational toward zero, the rounding JavaScript applies
inside the remainder operator. -/
def truncQ (q : ℚ) : ℤ :=
  q.num / (q.den : ℤ)

/-- Model of the JavaScript remainder `a % b` on numbers: the remainder of
the truncated division, carrying the sign of the dividend. -/
def jsRem (a b : ℚ) : ℚ :=
  a - b * (truncQ (a / b) : ℚ)

/-- The displacement accumulation of `generateMockTorusFromPoints`
lines 993-1002: each 2D point whose angle (about the image center) is within
0.5 radians of `theta` contributes `0.1 * (1 - angleDiff / 0.5)`. -/
def torusDisplacement (piq : ℚ) (atan2q : ℚ → ℚ → ℚ) (points : List (ℚ × ℚ))
    (theta : ℚ) : ℚ :=
  points.foldl (fun d p =>
    let px := (p.1 - 0.5) * 2
    let py := (p.2 - 0.5) * 2
    let angle := atan2q py px
    let angleDiff := |jsRem (angle - theta + piq) (piq * 2) - piq|
    if angleDiff < 0.5 then d + 0.1 * (1 - angleDiff / 0.5) else d) 0

/-- Plain mesh data (vertices, faces, normals) as returned by
`generateMockTorusFromPoints`. -/
structure MeshData where
  vertices : List (ℚ × ℚ × ℚ)
  faces : List (ℕ × ℕ × ℕ)
  normals : List (ℚ × ℚ × ℚ)
deriving DecidableEq, Repr

/-- One displaced torus vertex from `generateMockTorusFromPoints`
lines 982-1009: major radius 1.2, effective minor radius
`0.4 + displacement(theta)`. -/
def displacedTorusVertex (piq : ℚ) (cosq sinq : ℚ → ℚ) (atan2q : ℚ → ℚ → ℚ)
    (points : List (ℚ × ℚ)) (i j : ℕ) : ℚ × ℚ × ℚ :=
  let theta := ((i : ℚ) / 48) * piq * 2
  let phi := ((j : ℚ) / 24) * piq * 2
  let r := 0.4 + torusDisplacement piq atan2q points theta
  ((1.2 + r * cosq phi) * cosq theta, r * sinq phi, (1.2 + r * cosq phi) * sinq theta)

/-- The normal from `generateMockTorusFromPoints` lines 1011-1015. -/
def displacedTorusNormal (piq : ℚ) (cosq sinq : ℚ → ℚ) (i j : ℕ) : ℚ × ℚ × ℚ :=
  let theta := ((i : ℚ) / 48) * piq * 2
  let phi := ((j : ℚ) / 24) * piq * 2
  (cosq phi * cosq theta, sinq phi, cosq phi * sinq theta)

/-- The face list of `generateMockTorusFromPoints` lines 1020-1030: the grid
face loop with `majorSegments = 48`, `minorSegments = 24`. -/
def displacedTorusFaces : List (ℕ × ℕ × ℕ) :=
  gridFaces 48 24

/-- Model of `generateMockTorusFromPoints` (src/unnamed/part_004
lines 971-1033). -/
def generateMockTorusFromPoints (piq : ℚ) (cosq sinq : ℚ → ℚ)
    (atan2q : ℚ → ℚ → ℚ) (points : List (ℚ × ℚ)) : MeshData :=
  { vertices := (List.range 49).flatMap fun i =>
      (List.range 25).map fun j => displacedTorusVertex piq cosq sinq atan2q points i j
    faces := displacedTorusFaces
    normals := (List.range 49).flatMap fun i =>
      (List.range 25).map fun j => displacedTorusNormal piq cosq sinq i j }

/-- Modelled from the spec: the pure parametric torus of §4.4 — the standard
major/minor radius parametrization with major radius 1.2 and minor radius 0.4
on the same 48×24 sampling grid, with zero displacement at every vertex.
This is the comparison object for the empty-point-set fallback claim. -/
def specUndisplacedTorus (piq : ℚ) (cosq sinq : ℚ → ℚ) : MeshData :=
  { vertices := (List.range 49).flatMap fun (i : ℕ) =>
      (List.range 25).map fun (j : ℕ) =>
        let theta := ((i : ℚ) / 48) * piq * 2
        let phi := ((j : ℚ) / 24) * piq * 2
        ((1.2 + 0.4 * cosq phi) * cosq theta, 0.4 * sinq phi,
          (1.2 + 0.4 * cosq phi) * sinq theta)
    faces := displacedTorusFaces
    normals := (List.range 49).flatMap fun i =>
      (List.range 25).map fun j => displacedTorusNormal piq cosq sinq i j }

/-- An undirected vertex-index edge, normalized as an ordered pair. -/
def undirectedEdge (a b : ℕ) : ℕ × ℕ :=
  (min a b, max a b)

/-- The three undirected edges of each triangle of a face list, with
multiplicity. -/
def faceEdgeList (faces : List (ℕ × ℕ × ℕ)) : List (ℕ × ℕ) :=
  faces.flatMap fun f =>
    [undirectedEdge f.1 f.2.1, undirectedEdge f.2.1 f.2.2, undirectedEdge f.1 f.2.2]

/-- The number of distinct undirected vertex-index edges of a face list. -/
def distinctEdgeCount (faces : List (ℕ × ℕ × ℕ)) : ℕ :=
  (faceEdgeList faces).dedup.length

/-- The Euler characteristic `V - E + F` of a mesh, with `E` the number of
distinct undirected vertex-index edges of the face list. -/
def eulerCharacteristic (vertices : List (ℚ × ℚ × ℚ)) (faces : List (ℕ × ℕ × ℕ)) : ℤ :=
  (vertices.length : ℤ) - (distinctEdgeCount faces : ℤ) + (faces.length : ℤ)

/-- A bitmask-based distinct counter used to evaluate `distinctEdgeCount` on
concrete face lists: the accumulator `seen` records already counted keys as
set bits. -/
def countDistinctAux : List ℕ → ℕ → ℕ → ℕ
  | [], _, acc => acc
  | k :: ks, seen, acc =>
    if seen.testBit k then countDistinctAux ks seen acc
    else countDistinctAux ks (seen ||| 2 ^ k) (acc + 1)

/-- The number of distinct entries of a list of naturals, computed with a
bitmask accumulator. -/
def countDistinct (l : List ℕ) : ℕ :=
  countDistinctAux l 0 0

/-- Injective key for an edge pair, used to count distinct edges through
`countDistinct`. -/
def pairKey (p : ℕ × ℕ) : ℕ :=
  Nat.pair p.1 p.2

/-- The statement `Euclidean distance between a and b is at least m`, rendered
without square roots (exact for real arithmetic: a distance is non-negative,
so it is at least `m` iff `m ≤ 0` or `m² ≤ distance²`). -/
def featDistGe (a b : GeometricFeature) (m : ℚ) : Prop :=
  m ≤ 0 ∨ m ^ 2 ≤ featDistSq a b

instance (a b : GeometricFeature) (m : ℚ) : Decidable (featDistGe a b m) := by
  unfold featDistGe; infer_instance

/-- The squared Euclidean distance between two extracted points (normalized
coordinates). -/
def pointDistSq (a b : Point2D) : ℚ :=
  (a.x - b.x) ^ 2 + (a.y - b.y) ^ 2

/-- The statement `Euclidean distance between points a and b is at least m`,
rendered without square roots as for `featDistGe`. -/
def pointDistGe (a b : Point2D) (m : ℚ) : Prop :=
  m ≤ 0 ∨ m ^ 2 ≤ pointDistSq a b

/-- Modelled from the spec: the greedy non-maximum suppression loop of §4.3,
stated exactly as written there — iterate over the candidates in descending
weight order, accept a candidate only if its distance to every already
accepted point is at least the minimum distance, and stop once `maxPts`
candidates are accepted or the candidates are exhausted.  This is the
comparison object for the suppression-stage claim, not a translation of the
source. -/
def specGreedyNMSGo (minDistance : ℚ) (maxPts : ℕ) :
    List GeometricFeature → List GeometricFeature → List GeometricFeature
  | [], acc => acc
  | c :: rest, acc =>
    if maxPts ≤ acc.length then acc
    else if acc.all fun a => decide (featDistGe c a minDistance) then
      specGreedyNMSGo minDistance maxPts rest (acc ++ [c])
    else
      specGreedyNMSGo minDistance maxPts rest acc

/-- Modelled from the spec: greedy non-maximum suppression per §4.3 — sort by
weight descending, then run the greedy acceptance loop. -/
def specGreedyNMS (features : List GeometricFeature) (minDistance : ℚ) (maxPts : ℕ) :
    List GeometricFeature :=
  specGreedyNMSGo minDistance maxPts (sortByConfidenceDesc features) []

/-- One run of the feature-detection extraction path in an environment that
offers an ambient `Math.random` stream: `detectGeometricFeatures` never
samples the stream, so the parameter is unused — exactly as in the source,
which contains no call to `Math.random` on this path. -/
def extractViaDetection (_rng : ℕ → ℚ) (img : ImageData)
    (threshold minSpacing density : ℚ) : List Point2D :=
  detectGeometricFeatures img threshold minSpacing density

instance : IsTotal GeometricFeature fun a b => b.confidence ≤ a.confidence :=
  ⟨fun a b => le_total b.confidence a.confidence⟩

instance : IsTrans GeometricFeature fun a b => b.confidence ≤ a.confidence :=
  ⟨fun _ _ _ hab hbc => le_trans hbc hab⟩

/-- A JavaScript slice from index 0 is a sublist of its input. -/
lemma jsSlice0_sublist {α : Type} (k : ℤ) (l : List α) : (jsSlice0 k l).Sublist l := by
  unfold jsSlice0
  split <;> exact List.take_sublist _ _

/-- Length bound for a slice with a non-negative end index. -/
lemma jsSlice0_length_le {α : Type} (k : ℤ) (l : List α) (hk : 0 ≤ k) :
    ((jsSlice0 k l).length : ℤ) ≤ k := by
  unfold jsSlice0
  rw [if_pos hk]
  have h := List.length_take_le k.toNat l
  omega

/-- Reading the appended element of a concatenation. -/
lemma getD_concat_length {α : Type} (H : List α) (p d : α) :
    (H ++ [p]).getD H.length d = p := by
  induction H with
  | nil => rfl
  | cons a t ih => simp [ih]

/-- The squared feature distance is symmetric. -/
lemma featDistSq_comm (a b : GeometricFeature) : featDistSq a b = featDistSq b a := by
  unfold featDistSq; ring

/-- The spacing filter only ever appends to its accumulator. -/
lemma filterBySpacingGo_starts_with_acc (m : ℚ) (rest acc : List GeometricFeature) :
    acc <+: filterBySpacingGo m rest acc := by
  induction rest generalizing acc with
  | nil => exact List.prefix_rfl
  | cons c rest ih =>
    rw [filterBySpacingGo]
    by_cases h : acc.any fun e => decide (featDistSq c e < m)
    · simpa [h] using ih acc
    · simp only [h, if_false, Bool.false_eq_true]
      exact (List.prefix_append acc [c]).trans (ih (acc ++ [c]))

/-- A candidate the spacing filter rejects was, at rejection time, within the
minimum squared distance of some feature the filter keeps. -/
lemma filterBySpacingGo_rejected (m : ℚ) (rest : List GeometricFeature)
    (f : GeometricFeature) (hf : f ∈ rest) :
    ∀ acc, f ∉ filterBySpacingGo m rest acc →
      ∃ g ∈ filterBySpacingGo m rest acc, featDistSq f g < m := by
  induction rest with
  | nil => cases hf
  | cons c rest ih =>
    intro acc hnot
    rw [filterBySpacingGo] at hnot ⊢
    by_cases h : acc.any fun e => decide (featDistSq c e < m)
    · simp only [h, if_true] at hnot ⊢
      cases hf with
      | head =>
        rcases List.any_eq_true.mp h with ⟨e, he, hde⟩
        exact ⟨e, (filterBySpacingGo_starts_with_acc m rest acc).subset he, of_decide_eq_true hde⟩
      | tail _ hf => exact ih hf acc hnot
    · simp only [h, if_false, Bool.false_eq_true] at hnot ⊢
      cases hf with
      | head =>
        exact absurd ((filterBySpacingGo_starts_with_acc m rest (acc ++ [f])).subset
          (List.mem_append_right acc (List.mem_singleton_self f))) hnot
      | tail _ hf => exact ih hf (acc ++ [c]) hnot

/-- The spacing filter preserves the pairwise squared-distance invariant of
its accumulator. -/
lemma filterBySpacingGo_pairwise (m : ℚ) (rest : List GeometricFeature) :
    ∀ acc, acc.Pairwise (fun a b => m ≤ featDistSq a b) →
      (filterBySpacingGo m rest acc).Pairwise fun a b => m ≤ featDistSq a b := by
  induction rest with
  | nil => exact fun acc hacc => hacc
  | cons c rest ih =>
    intro acc hacc
    rw [filterBySpacingGo]
    by_cases h : acc.any fun e => decide (featDistSq c e < m)
    · simpa [h] using ih acc hacc
    · simp only [h, if_false, Bool.false_eq_true]
      refine ih (acc ++ [c]) ?_
      rw [List.pairwise_append]
      refine ⟨hacc, List.pairwise_singleton _ _, ?_⟩
      intro a ha b hb
      rw [List.mem_singleton] at hb
      subst hb
      have hfalse : (acc.any fun e => decide (featDistSq b e < m)) = false := by
        simpa using h
      have h2 : ¬ featDistSq b a < m := by
        simpa using List.any_eq_false.mp hfalse a ha
      rw [featDistSq_comm b a] at h2
      exact le_of_not_lt h2

/-- C10: in the application store, `setAdjustedPoints p` followed by `undo`
and then `redo` restores `adjustedPoints = p`, and `undo` at history index 0
(the first entry) is a no-op. -/
theorem setAdjustedPoints_undo_redo_roundtrip (s : PointsHistoryState) (p : List Point2D) :
    (redo (undo (setAdjustedPoints s p))).adjustedPoints = p ∧
      (s.pointsHistoryIndex = 0 → undo s = s) := by
  constructor
  · set H := jsSlice0 (s.pointsHistoryIndex + 1) s.pointsHistory with hH
    have hset : setAdjustedPoints s p =
        { s with
          adjustedPoints := p
          pointsHistory := H ++ [p]
          pointsHistoryIndex := ((H ++ [p]).length : ℤ) - 1
          canUndo := decide (1 < (H ++ [p]).length)
          canRedo := false } := rfl
    rw [hset]
    by_cases h0 : H.length = 0
    · have hnil : H = [] := List.length_eq_zero.mp h0
      rw [hnil]
      rw [undo, redo]
      norm_num
    · have hpos : 0 < ((H ++ [p]).length : ℤ) - 1 := by
        simp only [List.length_append, List.length_cons, List.length_nil]
        omega
      rw [undo]
      simp only [hpos, if_pos]
      rw [redo]
      have hcond : ((H ++ [p]).length : ℤ) - 1 - 1 < ((H ++ [p]).length : ℤ) - 1 := by omega
      simp only [hcond, if_pos]
      have hidx : (((H ++ [p]).length : ℤ) - 1 - 1 + 1) = ((H ++ [p]).length : ℤ) - 1 := by ring
      simp only [hidx]
      have htn : (((H ++ [p]).length : ℤ) - 1).toNat = H.length := by
        simp only [List.length_append, List.length_cons, List.length_nil]
        omega
      simp only [htn]
      exact getD_concat_length H p []
  · intro h
    rw [undo, h]
    norm_num

/-- Witness for the round-trip theorem at a concrete store state. -/
theorem setAdjustedPoints_undo_redo_roundtrip_witness :
    (redo (undo (setAdjustedPoints ⟨[], [[]], 0, false, false⟩
        [⟨0, 0, 1, "edge"⟩]))).adjustedPoints = [⟨0, 0, 1, "edge"⟩] ∧
      undo ⟨[], [[]], 0, false, false⟩ = ⟨[], [[]], 0, false, false⟩ := by
  have h := setAdjustedPoints_undo_redo_roundtrip ⟨[], [[]], 0, false, false⟩
    [⟨0, 0, 1, "edge"⟩]
  exact ⟨h.1, h.2 rfl⟩

lemma clamp01_eq_self {q : ℚ} (h0 : 0 ≤ q) (h1 : q ≤ 1) : clamp01 q = q := by
  unfold clamp01
  rw [min_eq_right h1, max_eq_right h0]

lemma mockCandidate_mem_unit (piq : ℚ) (cosq sinq : ℚ → ℚ) (rng : ℕ → ℚ)
    (hr : ∀ n, 0 ≤ rng n ∧ rng n < 1)
    (hc : ∀ t, |cosq t| ≤ 1) (hs : ∀ t, |sinq t| ≤ 1) (edgeRatio : ℚ) (rix : ℕ) :
    0 ≤ (mockCandidate piq cosq sinq rng edgeRatio rix).1.1 ∧
      (mockCandidate piq cosq sinq rng edgeRatio rix).1.1 ≤ 1 ∧
      0 ≤ (mockCandidate piq cosq sinq rng edgeRatio rix).1.2 ∧
      (mockCandidate piq cosq sinq rng edgeRatio rix).1.2 ≤ 1 := by
  unfold mockCandidate
  split
  · obtain ⟨hr2a, hr2b⟩ := hr (rix + 2)
    have hcb := abs_le.mp (hc (rng (rix + 1) * piq * 2))
    have hsb := abs_le.mp (hs (rng (rix + 1) * piq * 2))
    constructor
    · dsimp only
      nlinarith [hcb.1, hcb.2]
    constructor
    · dsimp only
      nlinarith [hcb.1, hcb.2]
    constructor
    · dsimp only
      nlinarith [hsb.1, hsb.2]
    · dsimp only
      nlinarith [hsb.1, hsb.2]
  · obtain ⟨h1a, h1b⟩ := hr (rix + 1)
    obtain ⟨h2a, h2b⟩ := hr (rix + 2)
    refine ⟨?_, ?_, ?_, ?_⟩ <;> dsimp only <;> nlinarith

lemma placeLoop_accepts (piq : ℚ) (cosq sinq : ℚ → ℚ) (rng : ℕ → ℚ)
    (hr : ∀ n, 0 ≤ rng n ∧ rng n < 1)
    (hc : ∀ t, |cosq t| ≤ 1) (hs : ∀ t, |sinq t| ≤ 1)
    (edgeRatio minDist : ℚ) (points : List Point2D) :
    ∀ fuel rix x y rix2,
      placeLoop piq cosq sinq rng edgeRatio minDist points rix fuel = (some (x, y), rix2) →
      (0 ≤ x ∧ x ≤ 1 ∧ 0 ≤ y ∧ y ≤ 1) ∧
        ∀ p ∈ points, 0 < minDist → minDist ^ 2 ≤ (p.x - x) ^ 2 + (p.y - y) ^ 2 := by
  intro fuel
  induction fuel with
  | zero =>
    intro rix x y rix2 h
    rw [placeLoop] at h
    by_cases htc : mockTooClose points
        (mockCandidate piq cosq sinq rng edgeRatio rix).1.1
        (mockCandidate piq cosq sinq rng edgeRatio rix).1.2 minDist
    · simp only [htc, if_true] at h
      cases h
    · simp only [htc, if_false, Bool.false_eq_true] at h
      obtain ⟨h1, h2⟩ := Prod.mk.injEq .. ▸ h
      have hmem := mockCandidate_mem_unit piq cosq sinq rng hr hc hs edgeRatio rix
      have hxy : (mockCandidate piq cosq sinq rng edgeRatio rix).1 = (x, y) := by
        simpa using h1
      rw [hxy] at hmem htc
      refine ⟨hmem, ?_⟩
      unfold mockTooClose at htc
      simpa using htc
  | succ f ih =>
    intro rix x y rix2 h
    rw [placeLoop] at h
    by_cases htc : mockTooClose points
        (mockCandidate piq cosq sinq rng edgeRatio rix).1.1
        (mockCandidate piq cosq sinq rng edgeRatio rix).1.2 minDist
    · simp only [htc, if_true] at h
      exact ih _ _ _ _ h
    · simp only [htc, if_false, Bool.false_eq_true] at h
      obtain ⟨h1, h2⟩ := Prod.mk.injEq .. ▸ h
      have hmem := mockCandidate_mem_unit piq cosq sinq rng hr hc hs edgeRatio rix
      have hxy : (mockCandidate piq cosq sinq rng edgeRatio rix).1 = (x, y) := by
        simpa using h1
      rw [hxy] at hmem htc
      refine ⟨hmem, ?_⟩
      unfold mockTooClose at htc
      simpa using htc

lemma mockLoop_pairwise (piq : ℚ) (cosq sinq : ℚ → ℚ) (rng : ℕ → ℚ)
    (hr : ∀ n, 0 ≤ rng n ∧ rng n < 1)
    (hc : ∀ t, |cosq t| ≤ 1) (hs : ∀ t, |sinq t| ≤ 1)
    (edgeRatio minDist weighting : ℚ) :
    ∀ n points rix,
      points.Pairwise (fun a b => 0 < minDist → minDist ^ 2 ≤ pointDistSq a b) →
      (mockLoop piq cosq sinq rng edgeRatio minDist weighting n points rix).Pairwise
        fun a b => 0 < minDist → minDist ^ 2 ≤ pointDistSq a b := by
  intro n
  induction n with
  | zero => intro points rix hp; exact hp
  | succ n ih =>
    intro points rix hp
    rw [mockLoop]
    rcases hpl : placeLoop piq cosq sinq rng edgeRatio minDist points rix 49 with ⟨o, rix2⟩
    rcases o with _ | ⟨x, y⟩
    · exact ih points rix2 hp
    · obtain ⟨⟨hx0, hx1, hy0, hy1⟩, hfar⟩ :=
        placeLoop_accepts piq cosq sinq rng hr hc hs edgeRatio minDist points 49 rix x y
          rix2 hpl
      refine ih _ _ ?_
      rw [List.pairwise_append]
      refine ⟨hp, List.pairwise_singleton _ _, ?_⟩
      intro a ha b hb
      rw [List.mem_singleton] at hb
      subst hb
      intro hmd
      have h2 := hfar a ha hmd
      calc minDist ^ 2 ≤ (a.x - x) ^ 2 + (a.y - y) ^ 2 := h2
        _ = pointDistSq a ⟨clamp01 x, clamp01 y, weighting,
              if rng rix2 < edgeRatio then "edge" else "center"⟩ := by
            rw [clamp01_eq_self hx0 hx1, clamp01_eq_self hy0 hy1]
            unfold pointDistSq
            rfl

/-- C2 (amended): the suppression stage is greedy in candidate insertion
order, not in weight order — a candidate rejected by `filterBySpacing` lies
within the minimum distance of some candidate the filter keeps (one inserted
earlier, of arbitrary weight); only afterwards are the survivors sorted by
confidence descending and truncated to the density-derived cap. -/
theorem suppressStage_insertion_order_nms (features : List GeometricFeature)
    (minSpacing density : ℚ) :
    (∀ f ∈ features, f ∉ filterBySpacing features minSpacing →
      ∃ g ∈ filterBySpacing features minSpacing, featDistSq f g < minSpacing ^ 2) ∧
    List.Sorted (fun a b => b.confidence ≤ a.confidence)
      (suppressStage features minSpacing density) ∧
    (0 ≤ maxPointsOf density →
      ((suppressStage features minSpacing density).length : ℤ) ≤ maxPointsOf density) := by
  refine ⟨?_, ?_, ?_⟩
  · intro f hf hnot
    rw [filterBySpacing] at hnot ⊢
    have h := filterBySpacingGo_rejected (minSpacing * minSpacing) features f hf [] hnot
    simpa [pow_two] using h
  · have hs : List.Sorted (fun a b => b.confidence ≤ a.confidence)
        (sortByConfidenceDesc (filterBySpacing features minSpacing)) :=
      List.sorted_insertionSort _ _
    exact List.Pairwise.sublist (jsSlice0_sublist _ _) hs
  · intro hk
    exact jsSlice0_length_le _ _ hk

/-- C2 (counterexample): with candidates `A` (weight 1, inserted first) and
`B` (weight 2, within the minimum spacing of `A`), the code keeps `A` and
rejects `B`, while the greedy NMS specified by the spec (sort by weight
descending first) keeps `B` and rejects `A`; in particular the rejected
candidate `B` is not within the minimum distance of any accepted candidate of
greater or equal weight. -/
theorem suppressStage_not_spec_nms :
    suppressStage [⟨"corner", 0, 0, 1⟩, ⟨"corner", 1, 0, 2⟩] 5 50 =
        [⟨"corner", 0, 0, 1⟩] ∧
      specGreedyNMS [⟨"corner", 0, 0, 1⟩, ⟨"corner", 1, 0, 2⟩] 5
          (maxPointsOf 50).toNat = [⟨"corner", 1, 0, 2⟩] ∧
      suppressStage [⟨"corner", 0, 0, 1⟩, ⟨"corner", 1, 0, 2⟩] 5 50 ≠
        specGreedyNMS [⟨"corner", 0, 0, 1⟩, ⟨"corner", 1, 0, 2⟩] 5
          (maxPointsOf 50).toNat ∧
      (⟨"corner", 1, 0, 2⟩ : GeometricFeature) ∉
        suppressStage [⟨"corner", 0, 0, 1⟩, ⟨"corner", 1, 0, 2⟩] 5 50 ∧
      ∀ g ∈ suppressStage [⟨"corner", 0, 0, 1⟩, ⟨"corner", 1, 0, 2⟩] 5 50,
        g.confidence < 2 ∧ featDistSq g ⟨"corner", 1, 0, 2⟩ < 5 ^ 2 := by
  with_unfolding_all decide

/-- C1: every point set returned by point extraction satisfies the
minimum-spacing invariant.  On the feature-detection path every pair of
returned features is at Euclidean distance at least `minSpacing` (pixel
space, where the parameter is applied); on the mock-generation path every
pair of returned points is at distance at least `minSpacing / 100` (the
normalized form of the same parameter used by that path).  The mock-path
hypotheses state the facts `Math.random`, `Math.cos`, `Math.sin` actually
satisfy. -/
theorem extraction_minimum_spacing :
    (∀ (img : ImageData) (threshold minSpacing density : ℚ),
      (detectFeaturesFromImageData img threshold minSpacing density).Pairwise
        fun a b => featDistGe a b minSpacing) ∧
    ∀ (piq : ℚ) (cosq sinq : ℚ → ℚ) (rng : ℕ → ℚ)
      (density threshold minSpacing weighting : ℚ),
      (∀ n, 0 ≤ rng n ∧ rng n < 1) → (∀ t, |cosq t| ≤ 1) → (∀ t, |sinq t| ≤ 1) →
      (generateMockPoints piq cosq sinq rng density threshold minSpacing weighting).Pairwise
        fun a b => pointDistGe a b (minSpacing / 100) := by
  constructor
  · intro img t m d
    have h1 : (filterBySpacing (allFeatures img t) m).Pairwise
        fun a b => m * m ≤ featDistSq a b :=
      filterBySpacingGo_pairwise (m * m) (allFeatures img t) [] List.Pairwise.nil
    have h2 : (sortByConfidenceDesc (filterBySpacing (allFeatures img t) m)).Pairwise
        fun a b => m * m ≤ featDistSq a b := by
      refine h1.perm (List.perm_insertionSort _ _).symm ?_
      intro a b hab
      rw [featDistSq_comm]
      exact hab
    have h3 := List.Pairwise.sublist (jsSlice0_sublist (maxPointsOf d) _) h2
    refine h3.imp ?_
    intro a b hab
    exact Or.inr (by rw [pow_two]; exact hab)
  · intro piq cosq sinq rng density threshold minSpacing weighting hr hc hs
    have h := mockLoop_pairwise piq cosq sinq rng hr hc hs (threshold / 255)
      (minSpacing / 100) weighting (⌊density / 100 * 180 + 20⌋).toNat [] 0
      List.Pairwise.nil
    rw [generateMockPoints]
    refine h.imp ?_
    intro a b hab
    rcases le_or_lt (minSpacing / 100) 0 with hle | hlt
    · exact Or.inl hle
    · exact Or.inr (hab hlt)

/-- Witness for the spacing theorem: both conjuncts applied at concrete
inputs, all hypotheses discharged. -/
theorem extraction_minimum_spacing_witness :
    (detectFeaturesFromImageData ⟨4, 4, fun _ => 128⟩ 100 5 50).Pairwise
        (fun a b => featDistGe a b 5) ∧
      (generateMockPoints 0 (fun _ => 0) (fun _ => 0) (fun _ => 0) 0 0 0 1).Pairwise
        fun a b => pointDistGe a b ((0 : ℚ) / 100) :=
  ⟨extraction_minimum_spacing.1 ⟨4, 4, fun _ => 128⟩ 100 5 50,
    extraction_minimum_spacing.2 0 (fun _ => 0) (fun _ => 0) (fun _ => 0) 0 0 0 1
      (fun _ => by norm_num) (fun _ => by norm_num) (fun _ => by norm_num)⟩

/-- Blank image: the grayscale buffer is constant. -/
lemma grayAt_blank (img : ImageData) (hb : IsBlank img) (i j : ℕ) :
    grayAt img i = grayAt img j := by
  unfold grayAt
  rw [hb (4 * i) (4 * j), hb (4 * i + 1) (4 * j + 1), hb (4 * i + 2) (4 * j + 2)]

/-- The Sobel x-convolution of a constant buffer vanishes. -/
lemma sobelConvX_blank (g : ℕ → ℤ) (hg : ∀ i j, g i = g j) (w x y : ℕ) :
    sobelConv sobelX g w x y = 0 := by
  have hgc : ∀ i, g i = g 0 := fun i => hg i 0
  unfold sobelConv sobelX
  simp only [List.range_succ, List.range_zero, List.nil_append, List.cons_append,
    List.flatMap_cons, List.flatMap_nil, List.map_cons, List.map_nil, List.append_nil,
    List.sum_append, List.sum_cons, List.sum_nil]
  simp only [hgc]
  norm_num [List.getD]

/-- The Sobel y-convolution of a constant buffer vanishes. -/
lemma sobelConvY_blank (g : ℕ → ℤ) (hg : ∀ i j, g i = g j) (w x y : ℕ) :
    sobelConv sobelY g w x y = 0 := by
  have hgc : ∀ i, g i = g 0 := fun i => hg i 0
  unfold sobelConv sobelY
  simp only [List.range_succ, List.range_zero, List.nil_append, List.cons_append,
    List.flatMap_cons, List.flatMap_nil, List.map_cons, List.map_nil, List.append_nil,
    List.sum_append, List.sum_cons, List.sum_nil]
  simp only [hgc]
  norm_num [List.getD]

/-- All Harris second-moment sums vanish on a constant buffer. -/
lemma harrisSum_blank (g : ℕ → ℤ) (hg : ∀ i j, g i = g j) (w h x y : ℕ)
    (f : ℤ → ℤ → ℤ) (hf : f 0 0 = 0) :
    harrisSum g w h x y f = 0 := by
  unfold harrisSum
  apply List.sum_eq_zero
  intro z hz
  rw [List.mem_flatMap] at hz
  obtain ⟨a, _, hz⟩ := hz
  rw [List.mem_map] at hz
  obtain ⟨b, _, rfl⟩ := hz
  dsimp only
  split
  · rw [hg ((y - 3 + a) * w + (x - 3 + b) + 1) ((y - 3 + a) * w + (x - 3 + b)),
      hg ((y - 3 + a + 1) * w + (x - 3 + b)) ((y - 3 + a) * w + (x - 3 + b))]
    simpa using hf
  · rfl

/-- The Harris response of a constant buffer vanishes. -/
lemma harrisResponse_blank (g : ℕ → ℤ) (hg : ∀ i j, g i = g j) (w h x y : ℕ) :
    harrisResponse g w h x y = 0 := by
  unfold harrisResponse
  rw [harrisSum_blank g hg w h x y _ (by ring), harrisSum_blank g hg w h x y _ (by ring),
    harrisSum_blank g hg w h x y _ (by ring)]
  norm_num

/-- No corners are detected on a constant buffer at a non-negative
threshold. -/
lemma detectCorners_blank (g : ℕ → ℤ) (hg : ∀ i j, g i = g j) (w h : ℕ)
    (threshold : ℚ) (ht : 0 ≤ threshold) :
    detectCorners g w h threshold = [] := by
  unfold detectCorners
  rw [List.flatMap_eq_nil_iff]
  intro y _
  rw [List.flatMap_eq_nil_iff]
  intro x _
  rw [if_neg]
  rw [harrisResponse_blank g hg w h x y]
  nlinarith

/-- The edge buffer of a constant gray buffer is identically zero at a
non-negative threshold. -/
lemma applySobelFilter_blank (g : ℕ → ℤ) (hg : ∀ i j, g i = g j) (w h : ℕ)
    (threshold : ℚ) (ht : 0 ≤ threshold) (x y : ℕ) :
    applySobelFilter g w h threshold x y = 0 := by
  unfold applySobelFilter
  rw [if_neg]
  rintro ⟨-, -, -, -, hgt⟩
  rw [sobelConvX_blank g hg w x y, sobelConvY_blank g hg w x y] at hgt
  rcases hgt with h | h
  · linarith
  · push_cast at h
    nlinarith

/-- No curve points are sampled from an identically zero edge buffer. -/
lemma detectCurvePoints_zero (edges : ℕ → ℕ → ℚ) (hz : ∀ x y, edges x y = 0)
    (w h : ℕ) : detectCurvePoints edges w h = [] := by
  unfold detectCurvePoints
  rw [List.flatMap_eq_nil_iff]
  intro y _
  rw [List.flatMap_eq_nil_iff]
  intro x _
  rw [if_neg]
  rintro ⟨h0, -⟩
  rw [hz x y] at h0
  exact lt_irrefl 0 h0

/-- The suppression stage of an empty candidate list is empty. -/
lemma suppressStage_nil (minSpacing density : ℚ) :
    suppressStage [] minSpacing density = [] := by
  unfold suppressStage filterBySpacing filterBySpacingGo sortByConfidenceDesc jsSlice0
  simp [List.insertionSort]

/-- A blank image produces no extraction candidates at a non-negative
threshold. -/
lemma allFeatures_blank (img : ImageData) (hb : IsBlank img) (threshold : ℚ)
    (ht : 0 ≤ threshold) : allFeatures img threshold = [] := by
  unfold allFeatures
  rw [detectCorners_blank (grayAt img) (grayAt_blank img hb) _ _ threshold ht,
    detectCurvePoints_zero _
      (fun x y => applySobelFilter_blank (grayAt img) (grayAt_blank img hb)
        img.width img.height threshold ht x y) img.width img.height]
  rfl

/-- A blank image at a non-negative threshold yields an empty feature list. -/
lemma detectFeaturesFromImageData_blank (img : ImageData)
    (threshold minSpacing density : ℚ) (hb : IsBlank img) (ht : 0 ≤ threshold) :
    detectFeaturesFromImageData img threshold minSpacing density = [] := by
  rw [detectFeaturesFromImageData, allFeatures_blank img hb threshold ht]
  exact suppressStage_nil minSpacing density

/-- C4: the extractor returns at most
`maxPoints = floor(density / 100 * 200 + 20)` features (density scaled into
the cap as `floor(density_normalized * (max - base) + base)` with base 20 and
span 200), and a uniformly blank image yields exactly zero features. -/
theorem extraction_count_bound_and_blank (img : ImageData)
    (threshold minSpacing density : ℚ) (hd : 0 ≤ density) (ht : 0 ≤ threshold) :
    ((detectFeaturesFromImageData img threshold minSpacing density).length : ℤ) ≤
        maxPointsOf density ∧
      maxPointsOf density = ⌊density / 100 * 200 + 20⌋ ∧
      (IsBlank img → detectFeaturesFromImageData img threshold minSpacing density = []) := by
  refine ⟨?_, rfl, ?_⟩
  · have hk : (0 : ℤ) ≤ maxPointsOf density := by
      rw [maxPointsOf]
      rw [Int.le_floor]
      push_cast
      nlinarith
    exact jsSlice0_length_le _ _ hk
  · intro hb
    exact detectFeaturesFromImageData_blank img threshold minSpacing density hb ht

/-- Witness for the count-bound and blank-image theorem at the constant
4×4 image with value 128 and UI-default parameters. -/
theorem extraction_count_bound_and_blank_witness :
    (0 : ℚ) ≤ 50 ∧ (0 : ℚ) ≤ 100 ∧
      (((detectFeaturesFromImageData ⟨4, 4, fun _ => 128⟩ 100 5 50).length : ℤ) ≤
          maxPointsOf 50 ∧
        maxPointsOf 50 = ⌊(50 : ℚ) / 100 * 200 + 20⌋ ∧
        (IsBlank ⟨4, 4, fun _ => 128⟩ →
          detectFeaturesFromImageData ⟨4, 4, fun _ => 128⟩ 100 5 50 = [])) :=
  ⟨by norm_num, by norm_num,
    extraction_count_bound_and_blank ⟨4, 4, fun _ => 128⟩ 100 5 50 (by norm_num)
      (by norm_num)⟩

/-- C7 (amended): extraction on a blank image resolves with an empty point
set rather than an error — the model is a total function — but the
`useAdjustPoints` fallback does not pass the empty set downstream: an empty
detection result is discarded in favor of the mock points. -/
theorem blank_extraction_resolves_empty (img : ImageData)
    (threshold minSpacing density : ℚ) (hb : IsBlank img) (ht : 0 ≤ threshold) :
    detectGeometricFeatures img threshold minSpacing density = [] ∧
      ∀ mockPoints, adjustPointsFallback
        (detectGeometricFeatures img threshold minSpacing density) mockPoints =
          mockPoints := by
  have hempty : detectGeometricFeatures img threshold minSpacing density = [] := by
    rw [detectGeometricFeatures,
      detectFeaturesFromImageData_blank img threshold minSpacing density hb ht]
    rfl
  refine ⟨hempty, ?_⟩
  intro mockPoints
  rw [hempty, adjustPointsFallback]
  norm_num

/-- C7 (counterexample): for a concrete blank 4×4 image the downstream
fallback result is the 20 mock points, not the empty point set the extractor
produced. -/
theorem blank_extraction_fallback_not_empty :
    detectGeometricFeatures ⟨4, 4, fun _ => 128⟩ 100 5 50 = [] ∧
      adjustPointsFallback (detectGeometricFeatures ⟨4, 4, fun _ => 128⟩ 100 5 50)
        (generateMockPoints 0 (fun _ => 0) (fun _ => 0) (fun _ => 0) 0 0 0 1) ≠ [] ∧
      (generateMockPoints 0 (fun _ => 0) (fun _ => 0) (fun _ => 0) 0 0 0 1).length = 20 := by
  with_unfolding_all decide

/-- Witness for the blank-extraction theorem at the constant 4×4 image. -/
theorem blank_extraction_resolves_empty_witness :
    detectGeometricFeatures ⟨4, 4, fun _ => 128⟩ 100 5 50 = [] ∧
      ∀ mockPoints, adjustPointsFallback
        (detectGeometricFeatures ⟨4, 4, fun _ => 128⟩ 100 5 50) mockPoints =
          mockPoints :=
  blank_extraction_resolves_empty ⟨4, 4, fun _ => 128⟩ 100 5 50 (fun _ _ => rfl)
    (by norm_num)

/-- C3 (amended): the feature-detection path is deterministic — its output
depends only on the image and the parameters, not on the ambient random
stream — while the mock-generation path samples `Math.random` and two runs
with different streams can return different point sets. -/
theorem extraction_determinism_split :
    (∀ (rngOne rngTwo : ℕ → ℚ) (img : ImageData) (threshold minSpacing density : ℚ),
      extractViaDetection rngOne img threshold minSpacing density =
        extractViaDetection rngTwo img threshold minSpacing density) ∧
    ∃ (rngOne rngTwo : ℕ → ℚ) (density threshold minSpacing weighting : ℚ),
      (∀ n, 0 ≤ rngOne n ∧ rngOne n < 1) ∧ (∀ n, 0 ≤ rngTwo n ∧ rngTwo n < 1) ∧
      generateMockPoints 0 (fun _ => 0) (fun _ => 0) rngOne
          density threshold minSpacing weighting ≠
        generateMockPoints 0 (fun _ => 0) (fun _ => 0) rngTwo
          density threshold minSpacing weighting := by
  constructor
  · intro rngOne rngTwo img threshold minSpacing density
    rfl
  · refine ⟨(fun n => if n = 1 then 1 / 2 else 0), (fun _ => 0), 0, 0, 0, 1, ?_, ?_, ?_⟩
    · intro n
      by_cases hn : n = 1 <;> norm_num [hn]
    · intro n
      norm_num
    · with_unfolding_all decide

/-- C3 (counterexample): two runs of the mock-generation path with the same
parameters but different `Math.random` streams return different point
sets. -/
theorem generateMockPoints_not_deterministic :
    generateMockPoints 0 (fun _ => 0) (fun _ => 0) (fun n => if n = 1 then 1 / 2 else 0)
        0 0 0 1 ≠
      generateMockPoints 0 (fun _ => 0) (fun _ => 0) (fun _ => 0) 0 0 0 1 := by
  with_unfolding_all decide

/-- C8 (amended): `generateMockModel` maps every shape tag other than
`torus` — including unknown or unsupported tags — silently to the sphere
mock model; no configuration error is reported. -/
theorem generateMockModel_unknown_tag_defaults_to_sphere (now : ℕ) (piq : ℚ)
    (cosq sinq : ℚ → ℚ) (shape : String) (h : shape ≠ "torus") :
    generateMockModel now piq cosq sinq shape =
        generateMockModel now piq cosq sinq "sphere" ∧
      (generateMockModel now piq cosq sinq shape).shape = "sphere" := by
  have hs : ¬("sphere" : String) = "torus" := by decide
  constructor
  · rw [generateMockModel, generateMockModel]
    simp only [if_neg h, if_neg hs]
  · rw [generateMockModel]
    simp only [if_neg h]

/-- Witness for the silent-default theorem at the unknown tag
`wireframe_surface`. -/
theorem generateMockModel_unknown_tag_defaults_to_sphere_witness :
    generateMockModel 0 0 (fun _ => 0) (fun _ => 0) "wireframe_surface" =
        generateMockModel 0 0 (fun _ => 0) (fun _ => 0) "sphere" ∧
      (generateMockModel 0 0 (fun _ => 0) (fun _ => 0) "wireframe_surface").shape =
        "sphere" :=
  generateMockModel_unknown_tag_defaults_to_sphere 0 0 (fun _ => 0) (fun _ => 0)
    "wireframe_surface" (by decide)

/-- C8 (counterexample): requesting the mock model with the unknown tag
`wireframe_surface` does not fail — it returns exactly the sphere response,
a silently substituted default shape. -/
theorem generateMockModel_unknown_tag_no_error :
    generateMockModel 0 0 (fun _ => 0) (fun _ => 0) "wireframe_surface" =
        generateMockModel 0 0 (fun _ => 0) (fun _ => 0) "sphere" ∧
      (generateMockModel 0 0 (fun _ => 0) (fun _ => 0) "wireframe_surface").shape ≠
        "wireframe_surface" := by
  have h : ¬("wireframe_surface" : String) = "torus" := by decide
  have hs : ¬("sphere" : String) = "torus" := by decide
  constructor
  · rw [generateMockModel, generateMockModel]
    simp only [if_neg h, if_neg hs]
  · rw [generateMockModel]
    simp only [if_neg h]
    decide

/-- C9: the point-displaced torus generator applied to the empty point list
succeeds and returns exactly the undisplaced parametric torus — the
displacement accumulator is zero at every vertex. -/
theorem generateMockTorusFromPoints_empty (piq : ℚ) (cosq sinq : ℚ → ℚ)
    (atan2q : ℚ → ℚ → ℚ) :
    generateMockTorusFromPoints piq cosq sinq atan2q [] =
      specUndisplacedTorus piq cosq sinq := by
  rw [generateMockTorusFromPoints, specUndisplacedTorus]
  have hfun : (fun i => (List.range 25).map fun j =>
      displacedTorusVertex piq cosq sinq atan2q [] i j) =
      fun (i : ℕ) => (List.range 25).map fun (j : ℕ) =>
        let theta := ((i : ℚ) / 48) * piq * 2
        let phi := ((j : ℚ) / 24) * piq * 2
        ((1.2 + 0.4 * cosq phi) * cosq theta, 0.4 * sinq phi,
          (1.2 + 0.4 * cosq phi) * sinq theta) := by
    funext i
    refine congrArg (fun f => List.map f (List.range 25)) ?_
    funext j
    simp [displacedTorusVertex, torusDisplacement]
  rw [hfun]

/-- Witness for the amended suppression-stage theorem: all three parts
applied at a concrete candidate list, the membership, rejection and cap
hypotheses discharged by evaluation. -/
theorem suppressStage_insertion_order_nms_witness :
    (∃ g ∈ filterBySpacing [⟨"corner", 0, 0, 1⟩, ⟨"corner", 1, 0, 2⟩] 5,
        featDistSq ⟨"corner", 1, 0, 2⟩ g < 5 ^ 2) ∧
      List.Sorted (fun a b => b.confidence ≤ a.confidence)
        (suppressStage [⟨"corner", 0, 0, 1⟩, ⟨"corner", 1, 0, 2⟩] 5 50) ∧
      ((suppressStage [⟨"corner", 0, 0, 1⟩, ⟨"corner", 1, 0, 2⟩] 5 50).length : ℤ) ≤
        maxPointsOf 50 :=
  ⟨(suppressStage_insertion_order_nms [⟨"corner", 0, 0, 1⟩, ⟨"corner", 1, 0, 2⟩] 5 50).1
      ⟨"corner", 1, 0, 2⟩ (by decide) (by with_unfolding_all decide),
    (suppressStage_insertion_order_nms [⟨"corner", 0, 0, 1⟩, ⟨"corner", 1, 0, 2⟩] 5 50).2.1,
    (suppressStage_insertion_order_nms [⟨"corner", 0, 0, 1⟩, ⟨"corner", 1, 0, 2⟩] 5 50).2.2
      (by with_unfolding_all decide)⟩

/-- Membership characterization of the grid face list. -/
lemma mem_gridFaces {M N : ℕ} {f : ℕ × ℕ × ℕ} :
    f ∈ gridFaces M N ↔ ∃ i, i < M ∧ ∃ j, j < N ∧
      (f = (i * (N + 1) + j, i * (N + 1) + j + (N + 1), i * (N + 1) + j + 1) ∨
        f = (i * (N + 1) + j + 1, i * (N + 1) + j + (N + 1),
          i * (N + 1) + j + (N + 1) + 1)) := by
  simp only [gridFaces, List.mem_flatMap, List.mem_range, List.mem_cons,
    List.mem_singleton, List.not_mem_nil, or_false]

/-- Membership characterization of the edge list of a face list. -/
lemma mem_faceEdgeList {faces : List (ℕ × ℕ × ℕ)} {e : ℕ × ℕ} :
    e ∈ faceEdgeList faces ↔ ∃ f ∈ faces,
      e = undirectedEdge f.1 f.2.1 ∨ e = undirectedEdge f.2.1 f.2.2 ∨
        e = undirectedEdge f.1 f.2.2 := by
  simp only [faceEdgeList, List.mem_flatMap, List.mem_cons, List.mem_singleton,
    List.not_mem_nil, or_false]

/-- Normalization of an undirected edge whose endpoints are ordered. -/
lemma undirectedEdge_of_lt {a b : ℕ} (h : a < b) : undirectedEdge a b = (a, b) := by
  unfold undirectedEdge
  rw [min_eq_left (le_of_lt h), max_eq_right (le_of_lt h)]

/-- Normalization of an undirected edge whose endpoints are reversed. -/
lemma undirectedEdge_of_gt {a b : ℕ} (h : b < a) : undirectedEdge a b = (b, a) := by
  unfold undirectedEdge
  rw [min_eq_right (le_of_lt h), max_eq_left (le_of_lt h)]

/-- Uniqueness of the row/column decomposition of a grid vertex index. -/
lemma grid_index_inj {N i1 j1 i2 j2 : ℕ} (h1 : j1 < N + 1) (h2 : j2 < N + 1)
    (h : i1 * (N + 1) + j1 = i2 * (N + 1) + j2) : i1 = i2 ∧ j1 = j2 := by
  have e1 : i1 * (N + 1) + j1 = j1 + (N + 1) * i1 := by ring
  have e2 : i2 * (N + 1) + j2 = j2 + (N + 1) * i2 := by ring
  have hm : j1 % (N + 1) = j2 % (N + 1) := by
    have hc := congrArg (· % (N + 1)) h
    simpa [e1, e2, Nat.add_mul_mod_self_left] using hc
  rw [Nat.mod_eq_of_lt h1, Nat.mod_eq_of_lt h2] at hm
  subst hm
  have hi : i1 * (N + 1) = i2 * (N + 1) := by omega
  exact ⟨Nat.eq_of_mul_eq_mul_right (Nat.succ_pos N) hi, rfl⟩

/-- The edges of the grid face list are exactly the vertical, horizontal and
diagonal grid edges. -/
lemma mem_faceEdgeList_gridFaces {M N : ℕ} (hM : 1 ≤ M) (hN : 1 ≤ N) {e : ℕ × ℕ} :
    e ∈ faceEdgeList (gridFaces M N) ↔
      (∃ i, i < M ∧ ∃ j, j < N + 1 ∧ e = (i * (N + 1) + j, i * (N + 1) + j + (N + 1))) ∨
      (∃ i, i < M + 1 ∧ ∃ j, j < N ∧ e = (i * (N + 1) + j, i * (N + 1) + j + 1)) ∨
      (∃ i, i < M ∧ ∃ j, j < N ∧ e = (i * (N + 1) + j + 1, i * (N + 1) + j + (N + 1))) := by
  rw [mem_faceEdgeList]
  constructor
  · rintro ⟨f, hf, he⟩
    rw [mem_gridFaces] at hf
    obtain ⟨i, hi, j, hj, hface⟩ := hf
    rcases hface with rfl | rfl <;> dsimp only at he
    · rcases he with rfl | rfl | rfl
      · left
        refine ⟨i, hi, j, by omega, ?_⟩
        exact undirectedEdge_of_lt (by omega)
      · right; right
        refine ⟨i, hi, j, hj, ?_⟩
        exact undirectedEdge_of_gt (by omega)
      · right; left
        refine ⟨i, by omega, j, hj, ?_⟩
        exact undirectedEdge_of_lt (by omega)
    · rcases he with rfl | rfl | rfl
      · right; right
        refine ⟨i, hi, j, hj, ?_⟩
        exact undirectedEdge_of_lt (by omega)
      · right; left
        refine ⟨i + 1, by omega, j, hj, ?_⟩
        rw [undirectedEdge_of_lt (by omega), Prod.mk.injEq]
        exact ⟨by ring, by ring⟩
      · left
        refine ⟨i, hi, j + 1, by omega, ?_⟩
        rw [undirectedEdge_of_lt (by omega), Prod.mk.injEq]
        exact ⟨by ring, by ring⟩
  · rintro (⟨i, hi, j, hj, rfl⟩ | ⟨i, hi, j, hj, rfl⟩ | ⟨i, hi, j, hj, rfl⟩)
    · by_cases hjN : j < N
      · refine ⟨_, mem_gridFaces.mpr ⟨i, hi, j, hjN, Or.inl rfl⟩, ?_⟩
        left
        exact (undirectedEdge_of_lt (by omega)).symm
      · refine ⟨_, mem_gridFaces.mpr ⟨i, hi, N - 1, by omega, Or.inr rfl⟩, ?_⟩
        right; right
        dsimp only
        rw [undirectedEdge_of_lt (by omega), Prod.mk.injEq]
        have hj' : j = N := by omega
        subst hj'
        exact ⟨by omega, by omega⟩
    · by_cases hiM : i < M
      · refine ⟨_, mem_gridFaces.mpr ⟨i, hiM, j, hj, Or.inl rfl⟩, ?_⟩
        right; right
        exact (undirectedEdge_of_lt (by omega)).symm
      · refine ⟨_, mem_gridFaces.mpr ⟨M - 1, by omega, j, hj, Or.inr rfl⟩, ?_⟩
        right; left
        dsimp only
        rw [undirectedEdge_of_lt (by omega)]
        have hie : i = M := by omega
        rw [hie]
        have hMe : (M - 1) * (N + 1) + (N + 1) = M * (N + 1) := by
          have h1 : (M - 1) + 1 = M := by omega
          calc (M - 1) * (N + 1) + (N + 1) = ((M - 1) + 1) * (N + 1) := by ring
            _ = M * (N + 1) := by rw [h1]
        rw [Prod.mk.injEq]
        exact ⟨by omega, by omega⟩
    · refine ⟨_, mem_gridFaces.mpr ⟨i, hi, j, hj, Or.inl rfl⟩, ?_⟩
      right; left
      exact (undirectedEdge_of_gt (by omega)).symm

/-- The number of distinct undirected edges of an M-by-N grid face list:
vertical edges M*(N+1), horizontal edges (M+1)*N and diagonal edges M*N. -/
lemma distinctEdgeCount_gridFaces (M N : ℕ) (hM : 1 ≤ M) (hN : 2 ≤ N) :
    distinctEdgeCount (gridFaces M N) = 3 * M * N + M + N := by
  classical
  rw [distinctEdgeCount, ← List.card_toFinset]
  have hset : (faceEdgeList (gridFaces M N)).toFinset =
      ((Finset.range M ×ˢ Finset.range (N + 1)).image fun p =>
        (p.1 * (N + 1) + p.2, p.1 * (N + 1) + p.2 + (N + 1))) ∪
      ((Finset.range (M + 1) ×ˢ Finset.range N).image fun p =>
        (p.1 * (N + 1) + p.2, p.1 * (N + 1) + p.2 + 1)) ∪
      ((Finset.range M ×ˢ Finset.range N).image fun p =>
        (p.1 * (N + 1) + p.2 + 1, p.1 * (N + 1) + p.2 + (N + 1))) := by
    ext e
    rw [List.mem_toFinset, mem_faceEdgeList_gridFaces hM (by omega)]
    simp only [Finset.mem_union, Finset.mem_image, Finset.mem_product, Finset.mem_range,
      Prod.exists]
    constructor
    · rintro (⟨i, hi, j, hj, rfl⟩ | ⟨i, hi, j, hj, rfl⟩ | ⟨i, hi, j, hj, rfl⟩)
      · exact Or.inl (Or.inl ⟨i, j, ⟨hi, hj⟩, rfl⟩)
      · exact Or.inl (Or.inr ⟨i, j, ⟨hi, hj⟩, rfl⟩)
      · exact Or.inr ⟨i, j, ⟨hi, hj⟩, rfl⟩
    · rintro ((⟨i, j, ⟨hi, hj⟩, rfl⟩ | ⟨i, j, ⟨hi, hj⟩, rfl⟩) | ⟨i, j, ⟨hi, hj⟩, rfl⟩)
      · exact Or.inl ⟨i, hi, j, hj, rfl⟩
      · exact Or.inr (Or.inl ⟨i, hi, j, hj, rfl⟩)
      · exact Or.inr (Or.inr ⟨i, hi, j, hj, rfl⟩)
  rw [hset]
  have hd12 : Disjoint
      ((Finset.range M ×ˢ Finset.range (N + 1)).image fun p =>
        (p.1 * (N + 1) + p.2, p.1 * (N + 1) + p.2 + (N + 1)))
      ((Finset.range (M + 1) ×ˢ Finset.range N).image fun p =>
        (p.1 * (N + 1) + p.2, p.1 * (N + 1) + p.2 + 1)) := by
    rw [Finset.disjoint_left]
    rintro a ha hb
    rw [Finset.mem_image] at ha hb
    obtain ⟨p, -, hpa⟩ := ha
    obtain ⟨q, -, hqa⟩ := hb
    rw [← hqa] at hpa
    rw [Prod.mk.injEq] at hpa
    omega
  have hd3 : Disjoint
      (((Finset.range M ×ˢ Finset.range (N + 1)).image fun p =>
        (p.1 * (N + 1) + p.2, p.1 * (N + 1) + p.2 + (N + 1))) ∪
      ((Finset.range (M + 1) ×ˢ Finset.range N).image fun p =>
        (p.1 * (N + 1) + p.2, p.1 * (N + 1) + p.2 + 1)))
      ((Finset.range M ×ˢ Finset.range N).image fun p =>
        (p.1 * (N + 1) + p.2 + 1, p.1 * (N + 1) + p.2 + (N + 1))) := by
    rw [Finset.disjoint_left]
    rintro a ha hb
    rw [Finset.mem_union] at ha
    rw [Finset.mem_image] at hb
    obtain ⟨q, -, hqa⟩ := hb
    rcases ha with ha | ha <;> rw [Finset.mem_image] at ha <;> obtain ⟨p, -, hpa⟩ := ha <;>
      rw [← hqa] at hpa <;> rw [Prod.mk.injEq] at hpa <;> omega
  rw [Finset.card_union_of_disjoint hd3, Finset.card_union_of_disjoint hd12]
  have hc1 : ((Finset.range M ×ˢ Finset.range (N + 1)).image fun p =>
      (p.1 * (N + 1) + p.2, p.1 * (N + 1) + p.2 + (N + 1))).card = M * (N + 1) := by
    rw [Finset.card_image_of_injOn, Finset.card_product, Finset.card_range,
      Finset.card_range]
    intro p hp q hq hpq
    rw [Finset.mem_coe, Finset.mem_product, Finset.mem_range, Finset.mem_range] at hp hq
    rw [Prod.mk.injEq] at hpq
    have := grid_index_inj (by omega) (by omega) hpq.1
    exact Prod.ext this.1 this.2
  have hc2 : ((Finset.range (M + 1) ×ˢ Finset.range N).image fun p =>
      (p.1 * (N + 1) + p.2, p.1 * (N + 1) + p.2 + 1)).card = (M + 1) * N := by
    rw [Finset.card_image_of_injOn, Finset.card_product, Finset.card_range,
      Finset.card_range]
    intro p hp q hq hpq
    rw [Finset.mem_coe, Finset.mem_product, Finset.mem_range, Finset.mem_range] at hp hq
    rw [Prod.mk.injEq] at hpq
    have := grid_index_inj (by omega) (by omega) hpq.1
    exact Prod.ext this.1 this.2
  have hc3 : ((Finset.range M ×ˢ Finset.range N).image fun p =>
      (p.1 * (N + 1) + p.2 + 1, p.1 * (N + 1) + p.2 + (N + 1))).card = M * N := by
    rw [Finset.card_image_of_injOn, Finset.card_product, Finset.card_range,
      Finset.card_range]
    intro p hp q hq hpq
    rw [Finset.mem_coe, Finset.mem_product, Finset.mem_range, Finset.mem_range] at hp hq
    rw [Prod.mk.injEq] at hpq
    have h1 : p.1 * (N + 1) + (p.2 + 1) = q.1 * (N + 1) + (q.2 + 1) := by omega
    have := grid_index_inj (by omega) (by omega) h1
    exact Prod.ext this.1 (by omega)
  rw [hc1, hc2, hc3]
  ring

/-- Length of a flatMap over a range with constant block length. -/
lemma length_range_flatMap_const {α : Type} (n c : ℕ) (f : ℕ → List α)
    (h : ∀ i, (f i).length = c) : ((List.range n).flatMap f).length = n * c := by
  induction n with
  | zero => simp
  | succ n ih =>
    rw [List.range_succ, List.flatMap_append, List.length_append, ih, Nat.succ_mul]
    simp [h]

/-- The grid face list has two triangles per cell. -/
lemma gridFaces_length (M N : ℕ) : (gridFaces M N).length = 2 * M * N := by
  have h : (gridFaces M N).length = M * (N * 2) := by
    rw [gridFaces]
    apply length_range_flatMap_const
    intro i
    apply length_range_flatMap_const
    intro j
    rfl
  rw [h]
  ring

/-- The Euler characteristic of any mesh whose faces form an M-by-N grid face
list over (M+1)*(N+1) vertices is 1, the characteristic of a disk. -/
lemma eulerCharacteristic_gridFaces (M N : ℕ) (hM : 1 ≤ M) (hN : 2 ≤ N)
    (vs : List (ℚ × ℚ × ℚ)) (hv : vs.length = (M + 1) * (N + 1)) :
    eulerCharacteristic vs (gridFaces M N) = 1 := by
  rw [eulerCharacteristic, hv, distinctEdgeCount_gridFaces M N hM hN, gridFaces_length]
  push_cast
  ring

/-- The sphere mock has 17 × 17 vertices. -/
lemma generateSphereModel_vertices_length (piq : ℚ) (cosq sinq : ℚ → ℚ) :
    (generateSphereModel piq cosq sinq).vertices.length = 289 := by
  have he : (289 : ℕ) = 17 * 17 := by norm_num
  rw [generateSphereModel, he]
  apply length_range_flatMap_const
  intro i
  rw [List.length_map, List.length_range]

/-- The torus mock has 33 × 17 vertices. -/
lemma generateTorusModel_vertices_length (piq : ℚ) (cosq sinq : ℚ → ℚ) :
    (generateTorusModel piq cosq sinq).vertices.length = 561 := by
  have he : (561 : ℕ) = 33 * 17 := by norm_num
  rw [generateTorusModel, he]
  apply length_range_flatMap_const
  intro i
  rw [List.length_map, List.length_range]

/-- The torus mock pushes one normal per vertex. -/
lemma generateTorusModel_normals_length (piq : ℚ) (cosq sinq : ℚ → ℚ) :
    (generateTorusModel piq cosq sinq).normals.length = 561 := by
  have he : (561 : ℕ) = 33 * 17 := by norm_num
  rw [generateTorusModel, he]
  apply length_range_flatMap_const
  intro i
  rw [List.length_map, List.length_range]

/-- The displaced torus has 49 × 25 vertices for every point set. -/
lemma generateMockTorusFromPoints_vertices_length (piq : ℚ) (cosq sinq : ℚ → ℚ)
    (atan2q : ℚ → ℚ → ℚ) (points : List (ℚ × ℚ)) :
    (generateMockTorusFromPoints piq cosq sinq atan2q points).vertices.length = 1225 := by
  have he : (1225 : ℕ) = 49 * 25 := by norm_num
  rw [generateMockTorusFromPoints, he]
  apply length_range_flatMap_const
  intro i
  rw [List.length_map, List.length_range]

/-- C5 (amended): every mesh emitted by the mock shape generators has Euler
characteristic `V - E + F = 1` — the characteristic of a disk, not of the
intended closed surface — because the latitude-longitude grids duplicate
their seam vertices instead of identifying them.  This holds for the sphere
mock, the torus mock, and the point-displaced torus at every point set; the
generators have no subdivision parameter. -/
theorem grid_mesh_euler_characteristic_one (piq : ℚ) (cosq sinq : ℚ → ℚ)
    (atan2q : ℚ → ℚ → ℚ) (points : List (ℚ × ℚ)) :
    eulerCharacteristic (generateSphereModel piq cosq sinq).vertices
        (generateSphereModel piq cosq sinq).faces = 1 ∧
      eulerCharacteristic (generateTorusModel piq cosq sinq).vertices
        (generateTorusModel piq cosq sinq).faces = 1 ∧
      eulerCharacteristic
        (generateMockTorusFromPoints piq cosq sinq atan2q points).vertices
        (generateMockTorusFromPoints piq cosq sinq atan2q points).faces = 1 := by
  refine ⟨?_, ?_, ?_⟩
  · have hf : (generateSphereModel piq cosq sinq).faces = gridFaces 16 16 := rfl
    rw [hf]
    exact eulerCharacteristic_gridFaces 16 16 (by norm_num) (by norm_num) _
      (by rw [generateSphereModel_vertices_length])
  · have hf : (generateTorusModel piq cosq sinq).faces = gridFaces 32 16 := rfl
    rw [hf]
    exact eulerCharacteristic_gridFaces 32 16 (by norm_num) (by norm_num) _
      (by rw [generateTorusModel_vertices_length])
  · have hf : (generateMockTorusFromPoints piq cosq sinq atan2q points).faces =
        gridFaces 48 24 := rfl
    rw [hf]
    exact eulerCharacteristic_gridFaces 48 24 (by norm_num) (by norm_num) _
      (by rw [generateMockTorusFromPoints_vertices_length])

/-- C5 (counterexample): at concrete inputs the sphere mock has Euler
characteristic 1, not the genus-0 value 2, and the torus mock has Euler
characteristic 1, not the genus-1 value 0. -/
theorem sphere_euler_characteristic_not_two :
    eulerCharacteristic (generateSphereModel 0 (fun _ => 0) (fun _ => 0)).vertices
        (generateSphereModel 0 (fun _ => 0) (fun _ => 0)).faces ≠ 2 ∧
      eulerCharacteristic (generateTorusModel 0 (fun _ => 0) (fun _ => 0)).vertices
        (generateTorusModel 0 (fun _ => 0) (fun _ => 0)).faces ≠ 0 := by
  constructor
  · have hf : (generateSphereModel 0 (fun _ => 0) (fun _ => 0)).faces =
        gridFaces 16 16 := rfl
    rw [hf, eulerCharacteristic_gridFaces 16 16 (by norm_num) (by norm_num) _
      (by rw [generateSphereModel_vertices_length])]
    decide
  · have hf : (generateTorusModel 0 (fun _ => 0) (fun _ => 0)).faces =
        gridFaces 32 16 := rfl
    rw [hf, eulerCharacteristic_gridFaces 32 16 (by norm_num) (by norm_num) _
      (by rw [generateTorusModel_vertices_length])]
    decide

/-- All vertex indices of the grid face list are below the vertex count of
the (M+1)-by-(N+1) vertex grid. -/
lemma gridFaces_index_bound {M N : ℕ} :
    ∀ f ∈ gridFaces M N, f.1 < (M + 1) * (N + 1) ∧ f.2.1 < (M + 1) * (N + 1) ∧
      f.2.2 < (M + 1) * (N + 1) := by
  intro f hf
  rw [mem_gridFaces] at hf
  obtain ⟨i, hi, j, hj, hface⟩ := hf
  have e1 : i * (N + 1) + (N + 1) = (i + 1) * (N + 1) := by ring
  have e2 : (M + 1) * (N + 1) = M * (N + 1) + (N + 1) := by ring
  have key : (i + 1) * (N + 1) ≤ M * (N + 1) := Nat.mul_le_mul_right _ (by omega)
  rcases hface with rfl | rfl
  · refine ⟨?_, ?_, ?_⟩ <;> dsimp only <;> omega
  · refine ⟨?_, ?_, ?_⟩ <;> dsimp only <;> omega

/-- Product of two values of absolute value at most one. -/
lemma abs_mul_le_one {a b : ℚ} (ha : |a| ≤ 1) (hb : |b| ≤ 1) : |a * b| ≤ 1 := by
  rw [abs_mul]
  calc |a| * |b| ≤ 1 * 1 := mul_le_mul ha hb (abs_nonneg b) (by norm_num)
    _ = 1 := by norm_num

/-- C6: for both mock shape generators every face vertex index is strictly
below the vertex count (indices are naturals, hence non-negative), and the
normals sequence is pushed once per vertex in the same loop, so it has
exactly the vertex count length and is index-aligned; under the bounds
`Math.sin` and `Math.cos` satisfy, every normal component has absolute value
at most 1 — in the exact rational embedding every component is a fortiori
finite. -/
theorem generator_face_indices_and_normals (piq : ℚ) (cosq sinq : ℚ → ℚ)
    (hc : ∀ t, |cosq t| ≤ 1) (hs : ∀ t, |sinq t| ≤ 1) :
    ((∀ f ∈ (generateSphereModel piq cosq sinq).faces,
        f.1 < (generateSphereModel piq cosq sinq).vertices.length ∧
          f.2.1 < (generateSphereModel piq cosq sinq).vertices.length ∧
          f.2.2 < (generateSphereModel piq cosq sinq).vertices.length) ∧
      (generateSphereModel piq cosq sinq).normals.length =
        (generateSphereModel piq cosq sinq).vertices.length ∧
      ∀ n ∈ (generateSphereModel piq cosq sinq).normals,
        |n.1| ≤ 1 ∧ |n.2.1| ≤ 1 ∧ |n.2.2| ≤ 1) ∧
    (∀ f ∈ (generateTorusModel piq cosq sinq).faces,
        f.1 < (generateTorusModel piq cosq sinq).vertices.length ∧
          f.2.1 < (generateTorusModel piq cosq sinq).vertices.length ∧
          f.2.2 < (generateTorusModel piq cosq sinq).vertices.length) ∧
      (generateTorusModel piq cosq sinq).normals.length =
        (generateTorusModel piq cosq sinq).vertices.length ∧
      ∀ n ∈ (generateTorusModel piq cosq sinq).normals,
        |n.1| ≤ 1 ∧ |n.2.1| ≤ 1 ∧ |n.2.2| ≤ 1 := by
  refine ⟨⟨?_, ?_, ?_⟩, ?_, ?_, ?_⟩
  · intro f hf
    rw [generateSphereModel_vertices_length]
    have hb := gridFaces_index_bound (M := 16) (N := 16) f hf
    norm_num at hb
    exact hb
  · rfl
  · intro n hn
    simp only [generateSphereModel, List.mem_flatMap, List.mem_map] at hn
    obtain ⟨ring, -, seg, -, rfl⟩ := hn
    rw [sphereVertex]
    refine ⟨?_, ?_, ?_⟩
    · dsimp only
      rw [one_mul]
      exact abs_mul_le_one (hs _) (hc _)
    · dsimp only
      rw [one_mul]
      exact hc _
    · dsimp only
      rw [one_mul]
      exact abs_mul_le_one (hs _) (hs _)
  · intro f hf
    rw [generateTorusModel_vertices_length]
    have hb := gridFaces_index_bound (M := 32) (N := 16) f hf
    norm_num at hb
    exact hb
  · rw [generateTorusModel_normals_length, generateTorusModel_vertices_length]
  · intro n hn
    simp only [generateTorusModel, List.mem_flatMap, List.mem_map] at hn
    obtain ⟨i, -, j, -, rfl⟩ := hn
    rw [torusNormal]
    exact ⟨abs_mul_le_one (hc _) (hc _), hs _, abs_mul_le_one (hc _) (hs _)⟩

/-- Witness for the face-index and normals theorem with the trigonometric
bounds discharged at the zero functions. -/
theorem generator_face_indices_and_normals_witness :
    (∀ f ∈ (generateSphereModel 0 (fun _ => 0) (fun _ => 0)).faces,
        f.1 < (generateSphereModel 0 (fun _ => 0) (fun _ => 0)).vertices.length ∧
          f.2.1 < (generateSphereModel 0 (fun _ => 0) (fun _ => 0)).vertices.length ∧
          f.2.2 < (generateSphereModel 0 (fun _ => 0) (fun _ => 0)).vertices.length) ∧
      (generateSphereModel 0 (fun _ => 0) (fun _ => 0)).normals.length =
        (generateSphereModel 0 (fun _ => 0) (fun _ => 0)).vertices.length :=
  ⟨(generator_face_indices_and_normals 0 (fun _ => 0) (fun _ => 0)
      (fun _ => by norm_num) (fun _ => by norm_num)).1.1,
    (generator_face_indices_and_normals 0 (fun _ => 0) (fun _ => 0)
      (fun _ => by norm_num) (fun _ => by norm_num)).1.2.1⟩
